import Mathlib

/-!
Verification of the match-batch pattern-detection service
(`netlify/functions/api.js` and its historical revisions).

The development shallowly embeds the JavaScript source: strings are Lean
`String`s (ASCII behaviour of the JS string builtins), JS `undefined` is
`Option.none`, integers are Lean `Int`, and the two HTTP handlers become
pure functions from a request value to an explicit outcome.  Wall-clock
fields (`lastUpdated`, `deviceTime`, `serverTime`) and the Mongo transport
are outside the model; the only store effect the model tracks is whether
the handler reached `connectToDatabase()` before finishing.
-/

/-! ## Models of the JavaScript string builtins (ASCII fragment) -/

/-- Model of JavaScript `String.prototype.toLowerCase` (ASCII characters). -/
def jsToLower (s : String) : String := ⟨s.data.map Char.toLower⟩

/-- Model of JavaScript `String.prototype.toUpperCase` (ASCII characters). -/
def jsToUpper (s : String) : String := ⟨s.data.map Char.toUpper⟩

/-- Model of JavaScript `String.prototype.trim`: drop whitespace from both ends. -/
def jsTrim (s : String) : String :=
  ⟨((s.data.dropWhile Char.isWhitespace).reverse.dropWhile Char.isWhitespace).reverse⟩

/-- Model of the JS idiom `x || d` on an optional string: `undefined` and the
empty string are falsy and fall through to the default. -/
def jsOrStr (a : Option String) (b : String) : String :=
  match a with
  | none => b
  | some s => if s = "" then b else s

/-- Numeric value of a list of decimal digit characters. -/
def digitsVal (ds : List Char) : Nat :=
  ds.foldl (fun acc c => acc * 10 + (c.toNat - '0'.toNat)) 0

/-- Longest leading run of decimal digits, or `none` when there is none. -/
def parseDigits (cs : List Char) : Option Nat :=
  let ds := cs.takeWhile Char.isDigit
  if ds.isEmpty then none else some (digitsVal ds)

/-- Model of JavaScript `parseInt` with the default radix on decimal input:
skip leading whitespace, optional sign, longest run of decimal digits;
`none` models the `NaN` result.  (The `0x` hexadecimal prefix of `parseInt`
is not modelled; no input in this development uses it.) -/
def parseIntCore (s : String) : Option Int :=
  match s.data.dropWhile Char.isWhitespace with
  | '-' :: rest => (parseDigits rest).map (fun n => -(n : Int))
  | '+' :: rest => (parseDigits rest).map (fun n => (n : Int))
  | rest => (parseDigits rest).map (fun n => (n : Int))

/-- Model of `parseInt(x)` where `x` may be `undefined` (which stringifies to
`"undefined"` and yields `NaN`). -/
def parseIntJS : Option String → Option Int
  | none => none
  | some s => parseIntCore s

/-- Model of the JS idiom `parseInt(x) || 0`: `NaN` and `0` are falsy. -/
def jsOrZero : Option Int → Int
  | none => 0
  | some v => if v = 0 then 0 else v

/-! ## Lexicographic string order used by JavaScript `Array.prototype.sort` -/

/-- Code-unit lexicographic comparison of character lists, as used by the
default JavaScript array sort on strings. -/
def lexLeB : List Char → List Char → Bool
  | [], _ => true
  | _ :: _, [] => false
  | a :: as, b :: bs =>
    if a < b then true
    else if b < a then false
    else lexLeB as bs

/-- Lexicographic order on strings (the JS default sort comparator). -/
def strLe (a b : String) : Prop := lexLeB a.data b.data = true

instance : DecidableRel strLe := fun a b => instDecidableEqBool (lexLeB a.data b.data) true

/-- Model of `array.sort()` on an array of strings. -/
def sortStr (l : List String) : List String := List.insertionSort strLe l

lemma char_eq_of_nlt {a b : Char} (h1 : ¬ a < b) (h2 : ¬ b < a) : a = b :=
  le_antisymm (not_lt.mp h2) (not_lt.mp h1)

lemma lexLeB_total : ∀ as bs : List Char, lexLeB as bs = true ∨ lexLeB bs as = true := by
  intro as
  induction as with
  | nil => intro bs; left; rfl
  | cons a as ih =>
    intro bs
    cases bs with
    | nil => right; rfl
    | cons b bs =>
      by_cases hab : a < b
      · left; simp [lexLeB, hab]
      · by_cases hba : b < a
        · right; simp [lexLeB, hba]
        · rcases ih bs with h | h
          · left; simp [lexLeB, hab, hba, h]
          · right; simp [lexLeB, hab, hba, h]

lemma lexLeB_antisymm : ∀ as bs : List Char,
    lexLeB as bs = true → lexLeB bs as = true → as = bs := by
  intro as
  induction as with
  | nil =>
    intro bs _ h2
    cases bs with
    | nil => rfl
    | cons b bs => simp [lexLeB] at h2
  | cons a as ih =>
    intro bs h1 h2
    cases bs with
    | nil => simp [lexLeB] at h1
    | cons b bs =>
      by_cases hab : a < b
      · simp [lexLeB, hab, lt_asymm hab] at h2
      · by_cases hba : b < a
        · simp [lexLeB, hab, hba] at h1
        · have hEq : a = b := char_eq_of_nlt hab hba
          simp [lexLeB, hab, hba] at h1
          simp [lexLeB, hEq] at h2
          rw [hEq, ih bs h1 h2]

lemma lexLeB_trans : ∀ as bs cs : List Char,
    lexLeB as bs = true → lexLeB bs cs = true → lexLeB as cs = true := by
  intro as
  induction as with
  | nil => intro bs cs _ _; rfl
  | cons a as ih =>
    intro bs cs h1 h2
    cases bs with
    | nil => simp [lexLeB] at h1
    | cons b bs =>
      cases cs with
      | nil => simp [lexLeB] at h2
      | cons c cs =>
        by_cases hab : a < b
        · by_cases hbc : b < c
          · simp [lexLeB, lt_trans hab hbc]
          · by_cases hcb : c < b
            · simp [lexLeB, hbc, hcb] at h2
            · have hEq : b = c := char_eq_of_nlt hbc hcb
              simp [lexLeB, hEq ▸ hab]
        · by_cases hba : b < a
          · simp [lexLeB, hab, hba] at h1
          · have hEqab : a = b := char_eq_of_nlt hab hba
            simp [lexLeB, hab, hba] at h1
            by_cases hbc : b < c
            · simp [lexLeB, hEqab ▸ hbc]
            · by_cases hcb : c < b
              · simp [lexLeB, hbc, hcb] at h2
              · simp [lexLeB, hbc, hcb] at h2
                have hac : ¬ a < c := hEqab ▸ hbc
                have hca : ¬ c < a := hEqab ▸ hcb
                simp [lexLeB, hac, hca, ih bs cs h1 h2]

instance : IsTotal String strLe := ⟨fun a b => lexLeB_total a.data b.data⟩

instance : IsTrans String strLe := ⟨fun a b c => lexLeB_trans a.data b.data c.data⟩

instance : IsAntisymm String strLe :=
  ⟨fun a b h1 h2 => by
    cases a; cases b
    exact congrArg String.mk (lexLeB_antisymm _ _ h1 h2)⟩

lemma sortStr_perm (l : List String) : (sortStr l).Perm l := List.perm_insertionSort _ _

lemma sortStr_eq_of_perm {l₁ l₂ : List String} (h : l₁.Perm l₂) : sortStr l₁ = sortStr l₂ :=
  List.eq_of_perm_of_sorted ((sortStr_perm l₁).trans (h.trans (sortStr_perm l₂).symm))
    (List.sorted_insertionSort _ _) (List.sorted_insertionSort _ _)

lemma sortStr_pair (a b : String) : sortStr [a, b] = sortStr [b, a] :=
  sortStr_eq_of_perm (List.Perm.swap b a [])

/-! ## Data model -/

/-- A stored match record.  The sanitization step of the ingestion route
(`POST /api/api`) produces exactly these four fields. -/
structure MatchRec where
  homeTeam : String
  awayTeam : String
  homeScore : Int
  awayScore : Int
deriving DecidableEq, Repr

/-- The four fingerprint strings computed by `getFingerprints` in
`netlify/functions/api.js` (lines 33-47). -/
structure Fingerprints where
  exact : String
  scrambled : String
  scores : String
  teams : String
deriving DecidableEq, Repr

/-- A stored batch document as projected by the pattern-analysis query
(`_id`, `season`, `trn`, `week`, `matches`); `matches` is optional because a
document may lack the field. -/
structure DbRecord where
  /-- the Mongo `_id` field -/
  id : String
  season : String
  trn : String
  week : String
  «matches» : Option (List MatchRec)
deriving DecidableEq, Repr

/-- An alert pushed by the pattern-analysis loop. -/
structure Alert where
  type : String
  color : String
  data : DbRecord
deriving DecidableEq, Repr

/-! ## Pattern fingerprint engine (api.js lines 33-47 and 92-105) -/

/-- The helper `clean` of `getFingerprints`:
`(t || "").toString().trim().toLowerCase()`.  On a Lean `String` the
`|| ""` guard and `toString()` are identities, leaving trim-then-lowercase. -/
def clean (t : String) : String := jsToLower (jsTrim t)

/-- Per-match token of the `exact` and `scrambled` fingerprints:
`"${clean(homeTeam)}:${homeScore}-${awayScore}:${clean(awayTeam)}"`. -/
def exactTok (m : MatchRec) : String :=
  clean m.homeTeam ++ ":" ++ toString m.homeScore ++ "-" ++ toString m.awayScore
    ++ ":" ++ clean m.awayTeam

/-- The `exact` fingerprint: per-match tokens joined by `"|"` in order. -/
def exactStr (ms : List MatchRec) : String :=
  String.intercalate "|" (ms.map exactTok)

/-- The `scrambled` fingerprint: the same tokens sorted before joining. -/
def scrambledStr (ms : List MatchRec) : String :=
  String.intercalate "|" (sortStr (ms.map exactTok))

/-- The `scores` fingerprint: `"${homeScore}-${awayScore}"` joined in order. -/
def scoresStr (ms : List MatchRec) : String :=
  String.intercalate "|" (ms.map fun m => toString m.homeScore ++ "-" ++ toString m.awayScore)

/-- Per-match token of the `teams` fingerprint:
`[clean(homeTeam), clean(awayTeam)].sort().join('v')`. -/
def teamTok (m : MatchRec) : String :=
  String.intercalate "v" (sortStr [clean m.homeTeam, clean m.awayTeam])

/-- The `teams` fingerprint: per-match team tokens sorted and joined. -/
def teamsStr (ms : List MatchRec) : String :=
  String.intercalate "|" (sortStr (ms.map teamTok))

/-- `getFingerprints(matches)`: returns the empty object (`none`) when the
match list is `undefined` or empty, and the four fingerprints otherwise. -/
def getFingerprints : Option (List MatchRec) → Option Fingerprints
  | none => none
  | some [] => none
  | some (m :: rest) =>
    some { exact := exactStr (m :: rest), scrambled := scrambledStr (m :: rest),
           scores := scoresStr (m :: rest), teams := teamsStr (m :: rest) }

/-- The classification chain of the pattern-analysis loop, on two
fingerprint objects.  Field access on the empty object yields `undefined`
(`Option.map` over `none`), and `===` is equality on `Option String`. -/
def classifyKeys (currentKeys pastKeys : Option Fingerprints) : Option String :=
  if currentKeys.map Fingerprints.exact = pastKeys.map Fingerprints.exact then
    some "EXACT SEQUENCE MATCH"
  else if currentKeys.map Fingerprints.scrambled = pastKeys.map Fingerprints.scrambled then
    some "REARRANGED SEQUENCE"
  else if currentKeys.map Fingerprints.teams = pastKeys.map Fingerprints.teams then
    some "TEAM PATTERN MATCH"
  else if currentKeys.map Fingerprints.scores = pastKeys.map Fingerprints.scores then
    some "SCORE PATTERN MATCH"
  else none

/-- Classification of one candidate match list against the current one. -/
def classify (cur past : Option (List MatchRec)) : Option String :=
  classifyKeys (getFingerprints cur) (getFingerprints past)

/-- The alert color attached to each alert type by the loop. -/
def colorFor (t : String) : String :=
  if t = "EXACT SEQUENCE MATCH" then "indigo"
  else if t = "REARRANGED SEQUENCE" then "amber"
  else if t = "TEAM PATTERN MATCH" then "emerald"
  else "rose"

/-- The body of the `allRecords.forEach(past => ...)` loop: skip the
requested record itself, then push at most one alert according to the
first satisfied rule of the chain. -/
def patternStep (requested : DbRecord) (currentKeys : Option Fingerprints)
    (alerts : List Alert) (past : DbRecord) : List Alert :=
  if past.id = requested.id then alerts
  else
    let pastKeys := getFingerprints past.matches
    if currentKeys.map Fingerprints.exact = pastKeys.map Fingerprints.exact then
      alerts ++ [{ type := "EXACT SEQUENCE MATCH", color := "indigo", data := past }]
    else if currentKeys.map Fingerprints.scrambled = pastKeys.map Fingerprints.scrambled then
      alerts ++ [{ type := "REARRANGED SEQUENCE", color := "amber", data := past }]
    else if currentKeys.map Fingerprints.teams = pastKeys.map Fingerprints.teams then
      alerts ++ [{ type := "TEAM PATTERN MATCH", color := "emerald", data := past }]
    else if currentKeys.map Fingerprints.scores = pastKeys.map Fingerprints.scores then
      alerts ++ [{ type := "SCORE PATTERN MATCH", color := "rose", data := past }]
    else alerts

/-- The pattern-analysis loop of `GET /api/api` (lines 92-105): fold the
step over the full corpus, starting from an empty alert list. -/
def patternAlerts (requested : DbRecord) (allRecords : List DbRecord) : List Alert :=
  allRecords.foldl (patternStep requested (getFingerprints requested.matches)) []

/-! ## Storage partition name (`getCollectionName`) -/

/-- `getCollectionName` of the current `api.js` (lines 28-30):
`` `${(league || "matches").toLowerCase().trim()}_matches` ``. -/
def getCollectionName (league : Option String) : String :=
  jsTrim (jsToLower (jsOrStr league "matches")) ++ "_matches"

/-- `getCollectionName` of the `leagueMap` revision (part_000 lines 36-48):
fall back to `"general"` for a falsy league, then look the cleaned league up
in the explicit map, defaulting to `` `${cleanLeague}_matches` ``. -/
def getCollectionNameRev (league : Option String) : String :=
  let cleanLeague :=
    match league with
    | none => "general"
    | some s => if s = "" then "general" else jsTrim (jsToLower s)
  if cleanLeague = "english" then "english_matches"
  else if cleanLeague = "laliga" then "laliga_matches"
  else if cleanLeague = "italian" then "italian_matches"
  else cleanLeague ++ "_matches"

/-! ## Ingestion (`POST /api/api`) -/

/-- An incoming raw match record: every field may be absent, team fields
arrive under either naming convention, scores arrive as uninterpreted
strings, and `extra` stands for any further fields the client sent. -/
structure RawMatch where
  homeTeam : Option String
  home : Option String
  awayTeam : Option String
  away : Option String
  visitor : Option String
  homeScore : Option String
  awayScore : Option String
  extra : List (String × String)
deriving DecidableEq, Repr

/-- Uppercase then trim, as in `(x).toString().toUpperCase().trim()`. -/
def jsUpperTrim (s : String) : String := jsTrim (jsToUpper s)

/-- The `sanitized` map of the current `api.js` POST route (lines 134-139). -/
def sanitize (m : RawMatch) : MatchRec :=
  { homeTeam := jsUpperTrim (jsOrStr m.homeTeam (jsOrStr m.home "N/A"))
    awayTeam := jsUpperTrim (jsOrStr m.awayTeam (jsOrStr m.away "N/A"))
    homeScore := jsOrZero (parseIntJS m.homeScore)
    awayScore := jsOrZero (parseIntJS m.awayScore) }

/-- The `sanitizedMatches` map of the corrected revision (part_000 lines
131-136): sentinel `"UNKNOWN"`, a third alias `visitor` for the away team,
and `isNaN(parseInt(x)) ? 0 : parseInt(x)` for the scores. -/
def sanitizeRev (m : RawMatch) : MatchRec :=
  { homeTeam := jsUpperTrim (jsOrStr m.homeTeam (jsOrStr m.home "UNKNOWN"))
    awayTeam := jsUpperTrim (jsOrStr m.awayTeam (jsOrStr m.away (jsOrStr m.visitor "UNKNOWN")))
    homeScore := (parseIntJS m.homeScore).getD 0
    awayScore := (parseIntJS m.awayScore).getD 0 }

/-- The derived primary key of the current `api.js` POST route (line 141):
`` `${batch.league.toLowerCase()}-${batch.season}-${batch.trn}-${batch.week}` ``. -/
def customId (league season trn week : String) : String :=
  jsToLower league ++ "-" ++ season ++ "-" ++ trn ++ "-" ++ week

/-- An ingestion request body.  `none` models an absent field; numeric JSON
values are modelled by their string forms. -/
structure PostBatch where
  league : Option String
  season : Option String
  trn : Option String
  week : Option String
  «matches» : Option (List RawMatch)
  allMatches : Option (List RawMatch)
deriving DecidableEq, Repr

/-- The document written by the upsert.  The wall-clock fields
(`lastUpdated` / `deviceTime` / `deviceTimestamp` / `serverTime`) are
outside the model. -/
structure StoredDoc where
  /-- the Mongo `_id` -/
  id : String
  league : String
  season : String
  trn : String
  week : String
  «matches» : List MatchRec
deriving DecidableEq, Repr

/-- Outcome of a POST request: an HTTP 400 client rejection, an HTTP 500
from a thrown error, or a successful upsert of `doc` into `collection`
under key `id`. -/
inductive PostResult where
  | clientError (msg : String)
  | serverError
  | success (collection : String) (id : String) (doc : StoredDoc)
deriving DecidableEq, Repr

/-- The idiom `batch.matches || batch.allMatches`: an array is truthy even
when empty, so an empty `matches` array is NOT replaced by `allMatches`. -/
def jsOrList (a b : Option (List RawMatch)) : Option (List RawMatch) :=
  match a with
  | some l => some l
  | none => b

/-- The POST route of the current `api.js` (lines 124-158).  The second
component records whether `connectToDatabase()` was reached before the
outcome.  After the `!matchData` guard the handler connects, sanitizes,
and builds the id; `batch.league.toLowerCase()` throws on an absent league
and `batch.season.toString()` (etc.) throws on an absent season/trn/week,
each surfacing as a 500 after the store was contacted. -/
def postHandler (b : PostBatch) : PostResult × Bool :=
  match jsOrList b.matches b.allMatches with
  | none => (.clientError "No data", false)
  | some matchData =>
    match b.league with
    | none => (.serverError, true)
    | some lg =>
      match b.season, b.trn, b.week with
      | some ssn, some t, some w =>
        let cid := customId lg ssn t w
        (.success (getCollectionName b.league) cid
          { id := cid, league := jsToLower lg, season := ssn, trn := t, week := w,
            «matches» := matchData.map sanitize }, true)
      | _, _, _ => (.serverError, true)

/-- The POST route of the corrected revision (part_000 lines 113-167):
missing/empty league and missing/empty/non-array match data are rejected
with 400 before `connectToDatabase()`; season/trn/week fall back to
`"0"` when falsy. -/
def postHandlerRev (b : PostBatch) : PostResult × Bool :=
  match b.league with
  | none => (.clientError "League name is required.", false)
  | some "" => (.clientError "League name is required.", false)
  | some lg =>
    match jsOrList b.matches b.allMatches with
    | none => (.clientError "No valid match data array provided.", false)
    | some [] => (.clientError "No valid match data array provided.", false)
    | some (m :: rest) =>
      let ssn := jsOrStr b.season "0"
      let t := jsOrStr b.trn "0"
      let w := jsOrStr b.week "0"
      let cid := customId lg ssn t w
      (.success (getCollectionNameRev b.league) cid
        { id := cid, league := jsToLower lg, season := ssn, trn := t, week := w,
          «matches» := (m :: rest).map sanitizeRev }, true)

/-! ## Spec-side definitions used for comparison -/

/-- Definition following the spec's words (§4.2): the `pairingSeq`
fingerprint is the join of `"home v away"` per match, in original order.
The source computes no such fingerprint; this definition exists only to
compare the spec's classification chain with the code's. -/
def specPairingSeq (ms : List MatchRec) : String :=
  String.intercalate "|" (ms.map fun m => clean m.homeTeam ++ " v " ++ clean m.awayTeam)

/-- Swap the home and away sides of a match while keeping each score
attached to its original slot. -/
def swapSides (m : MatchRec) : MatchRec :=
  { homeTeam := m.awayTeam, awayTeam := m.homeTeam,
    homeScore := m.homeScore, awayScore := m.awayScore }

/-! ## Helper lemmas -/

lemma getFingerprints_ne_nil {ms : List MatchRec} (h : ms ≠ []) :
    getFingerprints (some ms) =
      some { exact := exactStr ms, scrambled := scrambledStr ms,
             scores := scoresStr ms, teams := teamsStr ms } := by
  cases ms with
  | nil => exact absurd rfl h
  | cons m rest => rfl

lemma classifyKeys_none_some (fp : Fingerprints) : classifyKeys none (some fp) = none := by
  simp [classifyKeys]

lemma classifyKeys_some_none (fp : Fingerprints) : classifyKeys (some fp) none = none := by
  simp [classifyKeys]

lemma classify_eq_chain {M N : List MatchRec} (hM : M ≠ []) (hN : N ≠ []) :
    classify (some M) (some N) =
      if exactStr M = exactStr N then some "EXACT SEQUENCE MATCH"
      else if scrambledStr M = scrambledStr N then some "REARRANGED SEQUENCE"
      else if teamsStr M = teamsStr N then some "TEAM PATTERN MATCH"
      else if scoresStr M = scoresStr N then some "SCORE PATTERN MATCH"
      else none := by
  unfold classify
  rw [getFingerprints_ne_nil hM, getFingerprints_ne_nil hN]
  simp only [classifyKeys, Option.map_some', Option.some.injEq]

/-- Claim C8: fingerprint computation is pure and deterministic, the empty
match list yields the empty fingerprint object, and an empty (or missing)
match list never satisfies any rule against a non-empty one, so no alert is
emitted between an empty batch and a non-empty batch. -/
theorem claim8_fingerprints_deterministic_empty_never_matches :
    (∀ a b : Option (List MatchRec), a = b → getFingerprints a = getFingerprints b) ∧
    getFingerprints (some ([] : List MatchRec)) = none ∧
    getFingerprints (none : Option (List MatchRec)) = none ∧
    (∀ ms : List MatchRec, ms ≠ [] →
      getFingerprints (some ms) ≠ none ∧
      classify (some []) (some ms) = none ∧
      classify (some ms) (some []) = none ∧
      classify none (some ms) = none ∧
      classify (some ms) none = none) := by
  refine ⟨fun a b h => congrArg _ h, rfl, rfl, fun ms h => ?_⟩
  have hfp := getFingerprints_ne_nil h
  refine ⟨by rw [hfp]; exact fun hc => Option.noConfusion hc, ?_, ?_, ?_, ?_⟩ <;>
    unfold classify <;> rw [hfp] <;>
    first
      | exact classifyKeys_none_some _
      | exact classifyKeys_some_none _

/-- Witness for C8 at a concrete non-empty match list. -/
theorem claim8_witness :
    getFingerprints (some [(⟨"A", "B", 2, 1⟩ : MatchRec)]) ≠ none ∧
    classify (some []) (some [(⟨"A", "B", 2, 1⟩ : MatchRec)]) = none := by
  have h := claim8_fingerprints_deterministic_empty_never_matches.2.2.2
    [(⟨"A", "B", 2, 1⟩ : MatchRec)] (by simp)
  exact ⟨h.1, h.2.1⟩

/-- A record with an empty match list, for the empty-vs-empty alert. -/
def emptyRecA : DbRecord :=
  { id := "english-2024-1-3", season := "2024", trn := "1", week := "3", «matches» := some [] }

/-- A second record, with the `matches` field absent. -/
def emptyRecB : DbRecord :=
  { id := "english-2023-9-7", season := "2023", trn := "9", week := "7", «matches» := none }

/-- Claim C9: when both the requested and a candidate batch have an empty or
missing match list, `getFingerprints` returns the empty object for both, the
`===` test on the (absent) `exact` fields succeeds, and the loop emits an
`EXACT SEQUENCE MATCH` alert for the empty candidate instead of no alert. -/
theorem claim9_two_empty_batches_exact_match :
    getFingerprints (some ([] : List MatchRec)) = none ∧
    getFingerprints (none : Option (List MatchRec)) = none ∧
    (getFingerprints (some ([] : List MatchRec))).map Fingerprints.exact =
      (getFingerprints (none : Option (List MatchRec))).map Fingerprints.exact ∧
    classify (some []) (some []) = some "EXACT SEQUENCE MATCH" ∧
    classify (some []) none = some "EXACT SEQUENCE MATCH" ∧
    patternAlerts emptyRecA [emptyRecA, emptyRecB] =
      [{ type := "EXACT SEQUENCE MATCH", color := "indigo", data := emptyRecB }] := by
  refine ⟨rfl, rfl, rfl, rfl, rfl, ?_⟩
  decide

lemma colorFor_exact : colorFor "EXACT SEQUENCE MATCH" = "indigo" := by decide

lemma colorFor_rearranged : colorFor "REARRANGED SEQUENCE" = "amber" := by decide

lemma colorFor_teams : colorFor "TEAM PATTERN MATCH" = "emerald" := by decide

lemma colorFor_scores : colorFor "SCORE PATTERN MATCH" = "rose" := by decide

lemma patternStep_eq (r : DbRecord) (ck : Option Fingerprints) (acc : List Alert)
    (p : DbRecord) :
    patternStep r ck acc p =
      acc ++ (if p.id = r.id then none
        else (classifyKeys ck (getFingerprints p.matches)).map
          (fun t => ({ type := t, color := colorFor t, data := p } : Alert))).toList := by
  by_cases hid : p.id = r.id
  · simp [patternStep, hid]
  · simp only [patternStep, hid, if_false, ite_false]
    unfold classifyKeys
    split_ifs with h1 h2 h3 h4 <;>
      simp [colorFor_exact, colorFor_rearranged, colorFor_teams, colorFor_scores]

lemma foldl_patternStep (r : DbRecord) (ck : Option Fingerprints) :
    ∀ (recs : List DbRecord) (acc : List Alert),
      recs.foldl (patternStep r ck) acc =
        acc ++ recs.filterMap (fun p =>
          if p.id = r.id then none
          else (classifyKeys ck (getFingerprints p.matches)).map
            (fun t => ({ type := t, color := colorFor t, data := p } : Alert))) := by
  intro recs
  induction recs with
  | nil => intro acc; simp
  | cons p ps ih =>
    intro acc
    rw [List.foldl_cons, ih, patternStep_eq, List.filterMap_cons]
    cases h : (if p.id = r.id then none
        else (classifyKeys ck (getFingerprints p.matches)).map
          (fun t => ({ type := t, color := colorFor t, data := p } : Alert))) with
    | none => simp [h]
    | some a => simp [h]

/-- Claim C1, amended: the engine computes four fingerprints (`exact`,
`scrambled`, `scores`, `teams`) and emits at most one alert per candidate,
namely the first satisfied rule of the chain exact => EXACT SEQUENCE MATCH,
else scrambled => REARRANGED SEQUENCE, else teams => TEAM PATTERN MATCH,
else scores => SCORE PATTERN MATCH, else no alert; there is no `pairingSeq`
fingerprint and no Identical Fixture List classification. -/
theorem claim1_amended_four_rule_chain :
    (∀ (r : DbRecord) (recs : List DbRecord),
      patternAlerts r recs = recs.filterMap (fun p =>
        if p.id = r.id then none
        else (classify r.matches p.matches).map
          (fun t => ({ type := t, color := colorFor t, data := p } : Alert)))) ∧
    (∀ (cur past : Option (List MatchRec)) (t : String), classify cur past = some t →
      t = "EXACT SEQUENCE MATCH" ∨ t = "REARRANGED SEQUENCE" ∨
      t = "TEAM PATTERN MATCH" ∨ t = "SCORE PATTERN MATCH") ∧
    (∀ cur past : Option (List MatchRec), classify cur past ≠ some "IDENTICAL FIXTURE LIST") := by
  have hrange : ∀ (cur past : Option (List MatchRec)) (t : String),
      classify cur past = some t →
      t = "EXACT SEQUENCE MATCH" ∨ t = "REARRANGED SEQUENCE" ∨
      t = "TEAM PATTERN MATCH" ∨ t = "SCORE PATTERN MATCH" := by
    intro cur past t h
    unfold classify classifyKeys at h
    split_ifs at h <;> simp_all
  refine ⟨fun r recs => ?_, hrange, fun cur past hc => ?_⟩
  · unfold patternAlerts
    rw [foldl_patternStep]
    rfl
  · rcases hrange cur past _ hc with h | h | h | h <;> exact absurd h (by decide)

/-- Witness for C1: the chain applied to identical singleton lists emits the
exact-sequence alert type, which lies in the four-type range. -/
theorem claim1_witness :
    "EXACT SEQUENCE MATCH" = "EXACT SEQUENCE MATCH" ∨
    "EXACT SEQUENCE MATCH" = "REARRANGED SEQUENCE" ∨
    "EXACT SEQUENCE MATCH" = "TEAM PATTERN MATCH" ∨
    "EXACT SEQUENCE MATCH" = "SCORE PATTERN MATCH" :=
  claim1_amended_four_rule_chain.2.1 (some [(⟨"A", "B", 1, 0⟩ : MatchRec)])
    (some [(⟨"A", "B", 1, 0⟩ : MatchRec)]) "EXACT SEQUENCE MATCH" (by decide)

/-- Current batch of the C1 counterexample: one match whose home team name
contains the spec's `" v "` separator. -/
def curFixture : List MatchRec := [⟨"a v b", "c", 1, 0⟩]

/-- Candidate batch of the C1 counterexample: the same `pairingSeq` string
arises from a different pairing. -/
def candFixture : List MatchRec := [⟨"a", "b v c", 1, 0⟩]

/-- Counterexample to C1 as stated: a candidate whose spec-defined
`pairingSeq` fingerprint equals the current batch's while the `exact`,
`scrambled` and `pairingScrambled` (`teams`) fingerprints all differ is
classified `SCORE PATTERN MATCH` by the code, not Identical Fixture List —
the engine has no such rule. -/
theorem claim1_counterexample :
    specPairingSeq curFixture = specPairingSeq candFixture ∧
    exactStr curFixture ≠ exactStr candFixture ∧
    scrambledStr curFixture ≠ scrambledStr candFixture ∧
    teamsStr curFixture ≠ teamsStr candFixture ∧
    classify (some curFixture) (some candFixture) = some "SCORE PATTERN MATCH" ∧
    some "SCORE PATTERN MATCH" ≠ some "IDENTICAL FIXTURE LIST" := by
  decide

lemma scrambledStr_eq_of_perm {M N : List MatchRec} (h : M.Perm N) :
    scrambledStr M = scrambledStr N :=
  congrArg (String.intercalate "|") (sortStr_eq_of_perm (h.map exactTok))

/-- Claim C6, amended: for every non-empty match list `M` and permutation
`N` of `M`, the scrambled fingerprints agree, so the classification of `M`
against `N` is `REARRANGED SEQUENCE` exactly when the exact fingerprints
differ and `EXACT SEQUENCE MATCH` when they coincide — which always
happens when `M` has exactly one match (and also whenever the permutation
leaves the token sequence unchanged). -/
theorem claim6_amended_permutation_classification (M N : List MatchRec)
    (hp : M.Perm N) (hne : M ≠ []) :
    scrambledStr M = scrambledStr N ∧
    (exactStr M = exactStr N → classify (some M) (some N) = some "EXACT SEQUENCE MATCH") ∧
    (exactStr M ≠ exactStr N → classify (some M) (some N) = some "REARRANGED SEQUENCE") ∧
    (∀ m : MatchRec, M = [m] → classify (some M) (some N) = some "EXACT SEQUENCE MATCH") := by
  have hN : N ≠ [] := by
    intro h0
    apply hne
    have hlen := hp.length_eq
    rw [h0] at hlen
    exact List.length_eq_zero.mp hlen
  have chain := classify_eq_chain hne hN
  have hscr := scrambledStr_eq_of_perm hp
  refine ⟨hscr, fun hex => by rw [chain, if_pos hex],
    fun hex => by rw [chain, if_neg hex, if_pos hscr], fun m hm => ?_⟩
  subst hm
  have hNm : N = [m] := List.perm_singleton.mp hp.symm
  subst hNm
  rw [chain, if_pos rfl]

/-- Witness for C6: a genuine transposition of two distinct matches is
classified `REARRANGED SEQUENCE`. -/
theorem claim6_witness :
    scrambledStr [(⟨"a", "b", 1, 0⟩ : MatchRec), ⟨"c", "d", 2, 2⟩] =
      scrambledStr [(⟨"c", "d", 2, 2⟩ : MatchRec), ⟨"a", "b", 1, 0⟩] ∧
    classify (some [(⟨"a", "b", 1, 0⟩ : MatchRec), ⟨"c", "d", 2, 2⟩])
      (some [(⟨"c", "d", 2, 2⟩ : MatchRec), ⟨"a", "b", 1, 0⟩]) =
      some "REARRANGED SEQUENCE" := by
  have h := claim6_amended_permutation_classification
    [⟨"a", "b", 1, 0⟩, ⟨"c", "d", 2, 2⟩] [⟨"c", "d", 2, 2⟩, ⟨"a", "b", 1, 0⟩]
    (List.Perm.swap (⟨"c", "d", 2, 2⟩ : MatchRec) (⟨"a", "b", 1, 0⟩ : MatchRec) []) (by simp)
  exact ⟨h.1, h.2.2.1 (by decide)⟩

/-- A match used twice in the C6 counterexample list. -/
def dupMatch : MatchRec := ⟨"a", "b", 1, 0⟩

/-- Counterexample to C6 as stated: transposing the two (equal) matches of a
two-match list is a permutation that leaves the list unchanged, and the
code then classifies it `EXACT SEQUENCE MATCH`, not `REARRANGED SEQUENCE`,
although the list has more than one match. -/
theorem claim6_counterexample :
    ([dupMatch, dupMatch] : List MatchRec).Perm [dupMatch, dupMatch] ∧
    ([dupMatch, dupMatch] : List MatchRec).length = 2 ∧
    classify (some [dupMatch, dupMatch]) (some [dupMatch, dupMatch]) =
      some "EXACT SEQUENCE MATCH" ∧
    some "EXACT SEQUENCE MATCH" ≠ some "REARRANGED SEQUENCE" := by
  exact ⟨List.Perm.swap dupMatch dupMatch [], by decide, by decide, by decide⟩

lemma teamTok_swap (m : MatchRec) : teamTok (swapSides m) = teamTok m :=
  congrArg (String.intercalate "v") (sortStr_pair (clean m.awayTeam) (clean m.homeTeam))

lemma teamsStr_swap (M : List MatchRec) : teamsStr (M.map swapSides) = teamsStr M := by
  have h : (M.map swapSides).map teamTok = M.map teamTok := by
    rw [List.map_map]
    exact List.map_congr_left (fun m _ => teamTok_swap m)
  unfold teamsStr
  rw [h]

/-- Claim C7, amended: swapping the home and away sides of every match
(scores staying in their slots) preserves the `teams` (pairingScrambled)
fingerprint, so classifying the swapped list against the original yields
`TEAM PATTERN MATCH` whenever the exact and scrambled fingerprints both
differ, and in every case yields `EXACT SEQUENCE MATCH`,
`REARRANGED SEQUENCE` or `TEAM PATTERN MATCH` — never a score-only alert
and never no alert.  (The code computes no `pairingSeq` fingerprint and the
spec-defined one need not differ, e.g. when a match pairs a team with
itself.) -/
theorem claim7_amended_swap_classification (M : List MatchRec) (hne : M ≠ []) :
    teamsStr (M.map swapSides) = teamsStr M ∧
    (exactStr M ≠ exactStr (M.map swapSides) →
      scrambledStr M ≠ scrambledStr (M.map swapSides) →
      classify (some M) (some (M.map swapSides)) = some "TEAM PATTERN MATCH") ∧
    (classify (some M) (some (M.map swapSides)) = some "EXACT SEQUENCE MATCH" ∨
     classify (some M) (some (M.map swapSides)) = some "REARRANGED SEQUENCE" ∨
     classify (some M) (some (M.map swapSides)) = some "TEAM PATTERN MATCH") := by
  have hswne : M.map swapSides ≠ [] := by
    intro h0
    exact hne (List.map_eq_nil_iff.mp h0)
  have chain := classify_eq_chain hne hswne
  have hteams : teamsStr M = teamsStr (M.map swapSides) := (teamsStr_swap M).symm
  refine ⟨teamsStr_swap M, fun h1 h2 => by rw [chain, if_neg h1, if_neg h2, if_pos hteams], ?_⟩
  by_cases h1 : exactStr M = exactStr (M.map swapSides)
  · left; rw [chain, if_pos h1]
  · by_cases h2 : scrambledStr M = scrambledStr (M.map swapSides)
    · right; left; rw [chain, if_neg h1, if_pos h2]
    · right; right; rw [chain, if_neg h1, if_neg h2, if_pos hteams]

/-- Witness for C7: a single match between two distinct teams, sides
swapped, is classified `TEAM PATTERN MATCH`. -/
theorem claim7_witness :
    teamsStr ([(⟨"a", "b", 1, 0⟩ : MatchRec)].map swapSides) =
      teamsStr [(⟨"a", "b", 1, 0⟩ : MatchRec)] ∧
    classify (some [(⟨"a", "b", 1, 0⟩ : MatchRec)])
      (some ([(⟨"a", "b", 1, 0⟩ : MatchRec)].map swapSides)) =
      some "TEAM PATTERN MATCH" := by
  have h := claim7_amended_swap_classification [⟨"a", "b", 1, 0⟩] (by simp)
  exact ⟨h.1, h.2.1 (by decide) (by decide)⟩

/-- A single match pairing a team with itself, for the C7 counterexample. -/
def selfPair : List MatchRec := [⟨"x", "x", 1, 2⟩]

/-- Two reversed pairings with equal scores, for the C7 counterexample. -/
def revPair : List MatchRec := [⟨"a", "b", 1, 2⟩, ⟨"b", "a", 1, 2⟩]

/-- Counterexample to C7 as stated: when a match pairs a team with itself
the swapped list has the SAME spec-defined `pairingSeq` and classifies as
`EXACT SEQUENCE MATCH`; and a list containing a pairing and its reverse
with equal scores classifies against its swap as `REARRANGED SEQUENCE` —
both contradict "never Exact and never Rearranged". -/
theorem claim7_counterexample :
    specPairingSeq (selfPair.map swapSides) = specPairingSeq selfPair ∧
    classify (some selfPair) (some (selfPair.map swapSides)) =
      some "EXACT SEQUENCE MATCH" ∧
    classify (some revPair) (some (revPair.map swapSides)) =
      some "REARRANGED SEQUENCE" := by
  decide

lemma data_append (x y : String) : (x ++ y).data = x.data ++ y.data := rfl

lemma dashData : ("-" : String).data = ['-'] := rfl

lemma String_eq_of_data_eq {a b : String} (h : a.data = b.data) : a = b := by
  cases a; cases b; exact congrArg String.mk h

lemma append_dash_inj : ∀ (a c b d : List Char), '-' ∉ a → '-' ∉ c →
    a ++ '-' :: b = c ++ '-' :: d → a = c ∧ b = d := by
  intro a
  induction a with
  | nil =>
    intro c b d _ hc h
    cases c with
    | nil => simpa using h
    | cons x xs =>
      simp only [List.nil_append, List.cons_append, List.cons.injEq] at h
      exact absurd (List.mem_cons.mpr (Or.inl h.1)) hc
  | cons y ys ih =>
    intro c b d ha hc h
    cases c with
    | nil =>
      simp only [List.nil_append, List.cons_append, List.cons.injEq] at h
      exact absurd (List.mem_cons.mpr (Or.inl h.1.symm)) ha
    | cons x xs =>
      simp only [List.cons_append, List.cons.injEq] at h
      obtain ⟨hyx, hrest⟩ := h
      have ha2 : '-' ∉ ys := fun hm => ha (List.mem_cons.mpr (Or.inr hm))
      have hc2 : '-' ∉ xs := fun hm => hc (List.mem_cons.mpr (Or.inr hm))
      obtain ⟨h1, h2⟩ := ih xs b d ha2 hc2 hrest
      exact ⟨by rw [hyx, h1], h2⟩

lemma customId_data (l s t w : String) :
    (customId l s t w).data =
      (jsToLower l).data ++ '-' :: (s.data ++ '-' :: (t.data ++ '-' :: w.data)) := by
  unfold customId
  simp only [data_append, dashData, List.append_assoc, List.singleton_append,
    List.cons_append, List.nil_append]

/-- Claim C3, amended: the derived primary key is the lowercased league,
the season, the tournament and the week joined by `"-"`; it is
collision-free for tuples whose components are free of the delimiter,
comparing leagues after lowercasing — but not in general (see the
counterexample). -/
theorem claim3_amended_key_format_and_conditional_injectivity :
    (∀ l s t w : String,
      customId l s t w = jsToLower l ++ "-" ++ s ++ "-" ++ t ++ "-" ++ w) ∧
    (∀ l₁ s₁ t₁ w₁ l₂ s₂ t₂ w₂ : String,
      '-' ∉ (jsToLower l₁).data → '-' ∉ s₁.data → '-' ∉ t₁.data → '-' ∉ w₁.data →
      '-' ∉ (jsToLower l₂).data → '-' ∉ s₂.data → '-' ∉ t₂.data → '-' ∉ w₂.data →
      customId l₁ s₁ t₁ w₁ = customId l₂ s₂ t₂ w₂ →
      jsToLower l₁ = jsToLower l₂ ∧ s₁ = s₂ ∧ t₁ = t₂ ∧ w₁ = w₂) := by
  refine ⟨fun l s t w => rfl, ?_⟩
  intro l₁ s₁ t₁ w₁ l₂ s₂ t₂ w₂ hl1 hs1 ht1 hw1 hl2 hs2 ht2 hw2 heq
  have hd := congrArg String.data heq
  rw [customId_data, customId_data] at hd
  obtain ⟨e1, r1⟩ := append_dash_inj _ _ _ _ hl1 hl2 hd
  obtain ⟨e2, r2⟩ := append_dash_inj _ _ _ _ hs1 hs2 r1
  obtain ⟨e3, r3⟩ := append_dash_inj _ _ _ _ ht1 ht2 r2
  exact ⟨String_eq_of_data_eq e1, String_eq_of_data_eq e2,
    String_eq_of_data_eq e3, String_eq_of_data_eq r3⟩

/-- Witness for C3 on concrete dash-free components. -/
theorem claim3_witness :
    jsToLower "A" = jsToLower "a" ∧ ("2024" : String) = "2024" ∧
    ("1" : String) = "1" ∧ ("3" : String) = "3" :=
  claim3_amended_key_format_and_conditional_injectivity.2
    "A" "2024" "1" "3" "a" "2024" "1" "3"
    (by decide) (by decide) (by decide) (by decide)
    (by decide) (by decide) (by decide) (by decide) (by decide)

/-- Counterexample to C3 as stated: distinct tuples can collide, both when a
component contains the delimiter and when leagues differ only in case. -/
theorem claim3_counterexample :
    customId "a" "b-c" "d" "e" = customId "a" "b" "c-d" "e" ∧
    (("a", "b-c", "d", "e") : String × String × String × String) ≠ ("a", "b", "c-d", "e") ∧
    customId "A" "s" "t" "w" = customId "a" "s" "t" "w" ∧
    (("A", "s", "t", "w") : String × String × String × String) ≠ ("a", "s", "t", "w") := by
  decide

/-- Claim C5, amended: when every source field for a team name is absent or
empty the sentinel (`"N/A"` in the current revision, `"UNKNOWN"` in the
corrected revision) is stored, and the stored score is the parsed integer
when `parseInt` succeeds and `0` when it fails (`NaN`) — but a
whitespace-only supplied team name normalizes to the empty string and a
parsed negative score is stored as-is, so neither "never empty" nor
"≥ 0" holds unconditionally (see the counterexample). -/
theorem claim5_amended_sanitization (m : RawMatch) :
    ((m.homeTeam = none ∨ m.homeTeam = some "") → (m.home = none ∨ m.home = some "") →
      (sanitize m).homeTeam = "N/A" ∧ (sanitizeRev m).homeTeam = "UNKNOWN") ∧
    ((m.awayTeam = none ∨ m.awayTeam = some "") → (m.away = none ∨ m.away = some "") →
      (sanitize m).awayTeam = "N/A" ∧
      ((m.visitor = none ∨ m.visitor = some "") → (sanitizeRev m).awayTeam = "UNKNOWN")) ∧
    (parseIntJS m.homeScore = none →
      (sanitize m).homeScore = 0 ∧ (sanitizeRev m).homeScore = 0) ∧
    (∀ v : Int, parseIntJS m.homeScore = some v →
      (sanitize m).homeScore = v ∧ (sanitizeRev m).homeScore = v) ∧
    (parseIntJS m.awayScore = none →
      (sanitize m).awayScore = 0 ∧ (sanitizeRev m).awayScore = 0) ∧
    (∀ v : Int, parseIntJS m.awayScore = some v →
      (sanitize m).awayScore = v ∧ (sanitizeRev m).awayScore = v) := by
  refine ⟨?_, ?_, ?_, ?_, ?_, ?_⟩
  · intro h1 h2
    have e1 : jsOrStr m.homeTeam (jsOrStr m.home "N/A") = "N/A" := by
      rcases h1 with h | h <;> rcases h2 with h3 | h3 <;> simp [jsOrStr, h, h3]
    have e2 : jsOrStr m.homeTeam (jsOrStr m.home "UNKNOWN") = "UNKNOWN" := by
      rcases h1 with h | h <;> rcases h2 with h3 | h3 <;> simp [jsOrStr, h, h3]
    constructor
    · show jsUpperTrim (jsOrStr m.homeTeam (jsOrStr m.home "N/A")) = "N/A"
      rw [e1]; decide
    · show jsUpperTrim (jsOrStr m.homeTeam (jsOrStr m.home "UNKNOWN")) = "UNKNOWN"
      rw [e2]; decide
  · intro h1 h2
    have e1 : jsOrStr m.awayTeam (jsOrStr m.away "N/A") = "N/A" := by
      rcases h1 with h | h <;> rcases h2 with h3 | h3 <;> simp [jsOrStr, h, h3]
    constructor
    · show jsUpperTrim (jsOrStr m.awayTeam (jsOrStr m.away "N/A")) = "N/A"
      rw [e1]; decide
    · intro h4
      have e2 : jsOrStr m.awayTeam (jsOrStr m.away (jsOrStr m.visitor "UNKNOWN"))
          = "UNKNOWN" := by
        rcases h1 with h | h <;> rcases h2 with h3 | h3 <;> rcases h4 with h5 | h5 <;>
          simp [jsOrStr, h, h3, h5]
      show jsUpperTrim (jsOrStr m.awayTeam (jsOrStr m.away (jsOrStr m.visitor "UNKNOWN")))
          = "UNKNOWN"
      rw [e2]; decide
  · intro h
    constructor
    · show jsOrZero (parseIntJS m.homeScore) = 0
      rw [h]
      rfl
    · show (parseIntJS m.homeScore).getD 0 = 0
      rw [h]
      rfl
  · intro v h
    constructor
    · show jsOrZero (parseIntJS m.homeScore) = v
      rw [h]
      unfold jsOrZero
      by_cases hv : v = 0
      · simp [hv]
      · simp [hv]
    · show (parseIntJS m.homeScore).getD 0 = v
      rw [h]
      rfl
  · intro h
    constructor
    · show jsOrZero (parseIntJS m.awayScore) = 0
      rw [h]
      rfl
    · show (parseIntJS m.awayScore).getD 0 = 0
      rw [h]
      rfl
  · intro v h
    constructor
    · show jsOrZero (parseIntJS m.awayScore) = v
      rw [h]
      unfold jsOrZero
      by_cases hv : v = 0
      · simp [hv]
      · simp [hv]
    · show (parseIntJS m.awayScore).getD 0 = v
      rw [h]
      rfl

/-- A raw match with no team-name fields on either side, an unparsable home
score and a parsable away score. -/
def rawAbsent : RawMatch :=
  { homeTeam := none, home := none, awayTeam := none, away := none,
    visitor := none, homeScore := some "x", awayScore := some "7", extra := [] }

/-- Witness for C5: absent team fields yield the sentinel on both sides (in
both revisions, including the `visitor` alias chain), an unparsable score
yields 0 and a parsable one its value. -/
theorem claim5_witness :
    (sanitize rawAbsent).homeTeam = "N/A" ∧
    (sanitizeRev rawAbsent).homeTeam = "UNKNOWN" ∧
    (sanitize rawAbsent).awayTeam = "N/A" ∧
    (sanitizeRev rawAbsent).awayTeam = "UNKNOWN" ∧
    (sanitize rawAbsent).homeScore = 0 ∧
    (sanitizeRev rawAbsent).homeScore = 0 ∧
    (sanitize rawAbsent).awayScore = 7 ∧
    (sanitizeRev rawAbsent).awayScore = 7 := by
  have h := claim5_amended_sanitization rawAbsent
  have h1 := h.1 (Or.inl rfl) (Or.inl rfl)
  have h2 := h.2.1 (Or.inl rfl) (Or.inl rfl)
  have h3 := h.2.2.1 (by decide)
  have h4 := h.2.2.2.2.2 7 (by decide)
  exact ⟨h1.1, h1.2, h2.1, h2.2 (Or.inl rfl), h3.1, h3.2, h4.1, h4.2⟩

/-- A raw match with whitespace-only team names and negative scores on both
sides. -/
def rawBlank : RawMatch :=
  { homeTeam := some " ", home := none, awayTeam := some "  ", away := none,
    visitor := none, homeScore := some "-3", awayScore := some "-4", extra := [] }

/-- Counterexample to C5 as stated: whitespace-only supplied team names are
stored as the empty string on both sides, and negative supplied scores
parse and are stored negative, in both revisions. -/
theorem claim5_counterexample :
    (sanitize rawBlank).homeTeam = "" ∧
    (sanitizeRev rawBlank).homeTeam = "" ∧
    (sanitize rawBlank).awayTeam = "" ∧
    (sanitizeRev rawBlank).awayTeam = "" ∧
    (sanitize rawBlank).homeScore = -3 ∧
    (sanitizeRev rawBlank).homeScore = -3 ∧
    (sanitize rawBlank).awayScore = -4 ∧
    (sanitizeRev rawBlank).awayScore = -4 ∧
    (sanitize rawBlank).homeScore < 0 ∧
    (sanitize rawBlank).awayScore < 0 := by
  decide

/-- A well-formed raw match used in the C2 failing input. -/
def rawOne : RawMatch :=
  { homeTeam := some "A", home := none, awayTeam := some "B", away := none,
    visitor := none, homeScore := some "1", awayScore := some "0", extra := [] }

/-- The C2 failing input: a valid match list but no league field. -/
def batchNoLeague : PostBatch :=
  { league := none, season := some "2024", trn := some "1", week := some "3",
    «matches» := some [rawOne], allMatches := none }

/-- A second C2 failing input: a league but an empty match list. -/
def batchEmptyList : PostBatch :=
  { league := some "english", season := some "2024", trn := some "1", week := some "3",
    «matches» := some [], allMatches := none }

/-- A third C2 input: no match list under either field name. -/
def batchNoMatches : PostBatch :=
  { league := some "english", season := some "2024", trn := some "1", week := some "3",
    «matches» := none, allMatches := none }

/-- Claim C2 divergence: in the current `api.js` a POST without a league is
NOT rejected as a client error before store access — the handler reaches
`connectToDatabase()` and then throws (HTTP 500) — and an empty match list
passes the `!matchData` guard (an empty array is truthy) and a document
with an empty `matches` array is written.  The corrected revision
(part_000), which the claim describes, rejects both with a 400 before any
store access. -/
theorem claim2_validation_divergence :
    postHandler batchNoLeague = (PostResult.serverError, true) ∧
    postHandlerRev batchNoLeague =
      (PostResult.clientError "League name is required.", false) ∧
    postHandler batchEmptyList =
      (PostResult.success "english_matches" "english-2024-1-3"
        { id := "english-2024-1-3", league := "english", season := "2024", trn := "1",
          week := "3", «matches» := [] }, true) ∧
    postHandlerRev batchEmptyList =
      (PostResult.clientError "No valid match data array provided.", false) ∧
    postHandler batchNoMatches = (PostResult.clientError "No data", false) := by
  exact ⟨by decide, by decide, by decide, by decide, by decide⟩

/-- Claim C10: the document stored by a fully-specified POST carries
`season`, `trn` and `week` exactly as the supplied strings, and its match
list is exactly the image of the sanitizer, whose output is a `MatchRec`
with precisely the four fields `homeTeam`, `awayTeam`, `homeScore`,
`awayScore`; any extra fields on an ingested raw match are dropped (the
sanitizers ignore them). -/
theorem claim10_stored_document_shape :
    (∀ (b : PostBatch) (lg ssn t w : String) (md : List RawMatch),
      b.league = some lg → b.season = some ssn → b.trn = some t → b.week = some w →
      b.matches = some md →
      postHandler b = (PostResult.success (getCollectionName (some lg)) (customId lg ssn t w)
        { id := customId lg ssn t w, league := jsToLower lg, season := ssn, trn := t,
          week := w, «matches» := md.map sanitize }, true)) ∧
    (∀ m : RawMatch, sanitize m = sanitize { m with extra := [] } ∧
      sanitizeRev m = sanitizeRev { m with extra := [] }) := by
  constructor
  · intro b lg ssn t w md hl hs ht hw hm
    cases b
    cases hl
    cases hs
    cases ht
    cases hw
    cases hm
    rfl
  · intro m
    exact ⟨rfl, rfl⟩

/-- The spec §8 example match, with an extra field attached. -/
def rawExample : RawMatch :=
  { homeTeam := none, home := some "A", awayTeam := none, away := some "B",
    visitor := none, homeScore := some "2", awayScore := some "1",
    extra := [("venue", "X")] }

/-- The spec §8 example batch. -/
def batchExample : PostBatch :=
  { league := some "english", season := some "2024", trn := some "1", week := some "3",
    «matches» := some [rawExample], allMatches := none }

/-- Witness for C10 on the spec §8 example: the stored match is exactly
`{A, B, 2, 1}` and the extra field is gone. -/
theorem claim10_witness :
    postHandler batchExample = (PostResult.success "english_matches" "english-2024-1-3"
      { id := "english-2024-1-3", league := "english", season := "2024", trn := "1",
        week := "3", «matches» := [⟨"A", "B", 2, 1⟩] }, true) ∧
    sanitize rawExample = sanitize { rawExample with extra := [] } := by
  have h := claim10_stored_document_shape.1 batchExample "english" "2024" "1" "3"
    [rawExample] rfl rfl rfl rfl rfl
  exact ⟨h.trans (by decide), (claim10_stored_document_shape.2 rawExample).1⟩
